import Mathlib

/-!
Shallow embedding of the smaira-cron-rep market core.

Sources embedded here:
* the alerts module (`checkAlerts`, `formatAlerts`, alert state) from
  `src/commands/report.ts` (the `core/alerts` module of the repository);
* the markets module (`getMarketSnapshot`, `getTokenPrice`) from
  `src/core/markets.ts`.

Modelling conventions:
* JavaScript numbers are embedded as `ℚ` (the code performs only field
  arithmetic and comparisons on them);
* `Date` values are embedded as `ℚ` timestamps passed in explicitly
  (`new Date()` at a call site becomes a `now` parameter);
* `Map<string, number>` is an association list kept duplicate-free by
  `mapSet`, mirroring `Map.get` / `Map.set`; `Set<string>` is a list kept
  duplicate-free by `setAdd`, mirroring `Set.has` / `Set.add`;
* `Number.prototype.toFixed` is modelled by `toFixedQ` (round to the given
  number of decimal digits and print).  No theorem below depends on the
  printed digits;
* the external fetch (`fetchMarketData`) is a collaborator: every embedded
  operation takes the fetched batch as an explicit argument.
-/

namespace Smaira

/-- Point-in-time observation of one tradable asset
(`TokenMarketData` in `src/core/markets.ts`). -/
structure TokenMarketData where
  symbol : String
  name : String
  address : String
  priceUsd : ℚ
  marketCap : Option ℚ
  volume24h : ℚ
  priceChange24h : ℚ
  liquidity : Option ℚ
  verified : Bool
  lastUpdated : ℚ
deriving DecidableEq

/-- Alert kind (the `type` field of `Alert` in the alerts module). -/
inductive AlertType where
  | price_surge
  | price_drop
  | volume_spike
  | new_token
deriving DecidableEq

/-- Alert severity (`low`/`medium`/`high`). -/
inductive Severity where
  | low
  | medium
  | high
deriving DecidableEq

/-- One detected condition (`Alert` in the alerts module). -/
structure Alert where
  type : AlertType
  symbol : String
  message : String
  value : ℚ
  threshold : ℚ
  timestamp : ℚ
  severity : Severity
deriving DecidableEq

/-- Mutable detector state (`AlertState` in the alerts module).  Maps and the
set are embedded as duplicate-free lists. -/
structure AlertState where
  lastPrices : List (String × ℚ)
  lastVolumes : List (String × ℚ)
  lastCheck : ℚ
  knownTokens : List String
deriving DecidableEq

/-- Alert configuration (`AlertConfig` in the alerts module).  An absent
watchlist is embedded as `[]`: the code guards every watchlist use with
`watchlist?.length`, so an absent and an empty watchlist behave alike. -/
structure AlertConfig where
  priceChangeThreshold : ℚ
  volumeSpikeThreshold : ℚ
  watchlist : List String
deriving DecidableEq

/-- Model of `String.prototype.toUpperCase` on one character: ASCII lowercase
letters are mapped to uppercase, everything else is unchanged (the repository
only ever uppercases token symbols and watchlist entries, which are ASCII). -/
def upperChar (c : Char) : Char :=
  if 97 ≤ c.toNat ∧ c.toNat ≤ 122 then Char.ofNat (c.toNat - 32) else c

/-- Model of `String.prototype.toUpperCase`: uppercase every character. -/
def upperStr (s : String) : String := String.mk (s.data.map upperChar)

/-- Model of `Map.set`: replace the value at an existing key in place,
otherwise append the binding. -/
def mapSet (m : List (String × ℚ)) (k : String) (v : ℚ) : List (String × ℚ) :=
  match m with
  | [] => [(k, v)]
  | (k', v') :: rest => if k' = k then (k, v) :: rest else (k', v') :: mapSet rest k v

/-- Model of `Set.add`: append the element unless already present. -/
def setAdd (s : List String) (a : String) : List String :=
  if a ∈ s then s else s ++ [a]

/-- Model of `Number.prototype.toFixed digits` on a rational. -/
def toFixedQ (digits : Nat) (q : ℚ) : String :=
  let scale : ℚ := (10 : ℚ) ^ digits
  let n : Int := ⌊q * scale + 1 / 2⌋
  let sign := if n < 0 then "-" else ""
  let mag := n.natAbs
  let base := (10 : Nat) ^ digits
  if digits = 0 then
    sign ++ toString mag
  else
    let frac := toString (mag % base)
    sign ++ toString (mag / base) ++ "." ++
      String.mk (List.replicate (digits - frac.length) '0') ++ frac

/-- The state after `resetAlertState()` in the alerts module (fresh maps and
set, `lastCheck` stamped with the current time). -/
def initialAlertState (now : ℚ) : AlertState :=
  { lastPrices := [], lastVolumes := [], lastCheck := now, knownTokens := [] }

/-- Watchlist filter at the top of the `checkAlerts` loop: a token is skipped
iff the watchlist is non-empty and does not contain the uppercased symbol
(`alertConfig.watchlist?.length && !alertConfig.watchlist.includes(token.symbol.toUpperCase())`). -/
def considered (cfg : AlertConfig) (t : TokenMarketData) : Bool :=
  !(!cfg.watchlist.isEmpty && !cfg.watchlist.contains (upperStr t.symbol))

/-- Severity of a price alert:
`Math.abs(c) > 20 ? 'high' : Math.abs(c) > 10 ? 'medium' : 'low'`. -/
def priceSeverity (change : ℚ) : Severity :=
  if 20 < |change| then .high else if 10 < |change| then .medium else .low

/-- Severity of a volume-spike alert:
`c > 500 ? 'high' : c > 300 ? 'medium' : 'low'`. -/
def volumeSeverity (change : ℚ) : Severity :=
  if 500 < change then .high else if 300 < change then .medium else .low

/-- The price alert object pushed by `checkAlerts`. -/
def mkPriceAlert (cfg : AlertConfig) (now : ℚ) (t : TokenMarketData) : Alert :=
  { type := if 0 < t.priceChange24h then .price_surge else .price_drop
    symbol := t.symbol
    message := t.symbol ++ (if 0 < t.priceChange24h then " surged " else " dropped ") ++
      toFixedQ 2 |t.priceChange24h| ++ "% in 24h"
    value := t.priceChange24h
    threshold := cfg.priceChangeThreshold
    timestamp := now
    severity := priceSeverity t.priceChange24h }

/-- The volume-spike alert object pushed by `checkAlerts`. -/
def mkVolumeSpikeAlert (cfg : AlertConfig) (now : ℚ) (t : TokenMarketData)
    (change : ℚ) : Alert :=
  { type := .volume_spike
    symbol := t.symbol
    message := t.symbol ++ " volume spiked " ++ toFixedQ 0 change ++ "%"
    value := change
    threshold := cfg.volumeSpikeThreshold
    timestamp := now
    severity := volumeSeverity change }

/-- The new-token alert object pushed by `checkAlerts`. -/
def mkNewTokenAlert (now : ℚ) (t : TokenMarketData) : Alert :=
  { type := .new_token
    symbol := t.symbol
    message := "New verified token: " ++ t.symbol ++ " (" ++ t.name ++ ")"
    value := 0
    threshold := 0
    timestamp := now
    severity := .medium }

/-- Price-change check of the loop body: alert iff
`Math.abs(token.priceChange24h) >= alertConfig.priceChangeThreshold`. -/
def priceAlerts (cfg : AlertConfig) (now : ℚ) (t : TokenMarketData) : List Alert :=
  if cfg.priceChangeThreshold ≤ |t.priceChange24h| then [mkPriceAlert cfg now t] else []

/-- Volume-spike check of the loop body, reading `state.lastVolumes`:
`lastVolume && lastVolume > 0` guards the percentage computation, and the
alert fires iff `volumeChange >= alertConfig.volumeSpikeThreshold`. -/
def volumeAlerts (cfg : AlertConfig) (now : ℚ) (st : AlertState)
    (t : TokenMarketData) : List Alert :=
  match st.lastVolumes.lookup t.address with
  | none => []
  | some prev =>
    if 0 < prev then
      let change := (t.volume24h - prev) / prev * 100
      if cfg.volumeSpikeThreshold ≤ change then [mkVolumeSpikeAlert cfg now t change]
      else []
    else []

/-- New-token check of the loop body, reading `state.knownTokens`:
`!state.knownTokens.has(token.address) && token.verified`. -/
def newTokenAlerts (now : ℚ) (st : AlertState) (t : TokenMarketData) : List Alert :=
  if !st.knownTokens.contains t.address && t.verified then [mkNewTokenAlert now t] else []

/-- All alerts the loop body pushes for one token against the state `st` it
observes, in push order: price, volume spike, new token. -/
def tokenAlerts (cfg : AlertConfig) (now : ℚ) (st : AlertState)
    (t : TokenMarketData) : List Alert :=
  priceAlerts cfg now t ++ volumeAlerts cfg now st t ++ newTokenAlerts now st t

/-- State-update tail of the loop body (runs for every non-skipped token,
whether or not an alert fired): `lastPrices.set`, `lastVolumes.set`,
`knownTokens.add`. -/
def applyRecord (st : AlertState) (t : TokenMarketData) : AlertState :=
  { lastPrices := mapSet st.lastPrices t.address t.priceUsd
    lastVolumes := mapSet st.lastVolumes t.address t.volume24h
    lastCheck := st.lastCheck
    knownTokens := setAdd st.knownTokens t.address }

/-- The `for (const token of tokens)` loop of `checkAlerts`: accumulate alerts
and thread the mutable state. -/
def alertLoop (cfg : AlertConfig) (now : ℚ) :
    List TokenMarketData → List Alert → AlertState → List Alert × AlertState
  | [], acc, st => (acc, st)
  | t :: ts, acc, st =>
    if considered cfg t then
      alertLoop cfg now ts (acc ++ tokenAlerts cfg now st t) (applyRecord st t)
    else
      alertLoop cfg now ts acc st

/-- Embedding of `checkAlerts` from the alerts module, as a pure function of
the fetched batch, the resolved configuration, the incoming state and the
current time: run the loop, then stamp `state.lastCheck = new Date()`. -/
def checkAlerts (tokens : List TokenMarketData) (cfg : AlertConfig)
    (st : AlertState) (now : ℚ) : List Alert × AlertState :=
  ((alertLoop cfg now tokens [] st).1,
   { (alertLoop cfg now tokens [] st).2 with lastCheck := now })

/-- Derived market view (`MarketSnapshot` in `src/core/markets.ts`). -/
structure MarketSnapshot where
  timestamp : ℚ
  network : String
  tokenCount : Nat
  totalVolume24h : ℚ
  topByVolume : List TokenMarketData
  topGainers : List TokenMarketData
  topLosers : List TokenMarketData
  watchlist : List TokenMarketData
deriving DecidableEq

/-- Embedding of `getMarketSnapshot` from `src/core/markets.ts` as a pure
function of the fetched batch and the configuration fields it reads.
JavaScript `Array.prototype.sort` with comparator `(a, b) => k(b) - k(a)`
is embedded as the stable `List.mergeSort` with `le a b := k b ≤ k a`. -/
def getMarketSnapshot (allTokens : List TokenMarketData) (watchlist : List String)
    (network : String) (now : ℚ) : MarketSnapshot :=
  let activeTokens := allTokens.filter (fun t => decide (0 < t.volume24h))
  let byVolume := activeTokens.mergeSort (fun a b => decide (b.volume24h ≤ a.volume24h))
  let byGain := (activeTokens.filter (fun t => decide (0 < t.priceChange24h))).mergeSort
    (fun a b => decide (b.priceChange24h ≤ a.priceChange24h))
  let byLoss := (activeTokens.filter (fun t => decide (t.priceChange24h < 0))).mergeSort
    (fun a b => decide (a.priceChange24h ≤ b.priceChange24h))
  let watchlistTokens := allTokens.filter (fun t => watchlist.contains (upperStr t.symbol))
  let totalVolume := activeTokens.foldl (fun sum t => sum + t.volume24h) 0
  { timestamp := now
    network := network
    tokenCount := allTokens.length
    totalVolume24h := totalVolume
    topByVolume := byVolume.take 20
    topGainers := byGain.take 10
    topLosers := byLoss.take 10
    watchlist := watchlistTokens }

/-- Embedding of `getTokenPrice` from `src/core/markets.ts`:
`find` by uppercased symbol, then `token?.priceUsd || null` (which coerces a
found price of exactly `0` to `null`). -/
def getTokenPrice (allTokens : List TokenMarketData) (symbol : String) : Option ℚ :=
  match allTokens.find? (fun t => decide (upperStr t.symbol = upperStr symbol)) with
  | none => none
  | some t => if t.priceUsd = 0 then none else some t.priceUsd

/-- Section header written by `formatAlerts` for each alert group. -/
def headerOf : AlertType → String
  | .price_surge => "## 📈 Price Surges"
  | .price_drop => "## 📉 Price Drops"
  | .volume_spike => "## 📊 Volume Spikes"
  | .new_token => "## 🆕 New Tokens"

/-- Bullet line written by `formatAlerts` for one alert, by group. -/
def bulletOf : AlertType → Alert → String
  | .price_surge, a => "- **" ++ a.symbol ++ "**: +" ++ toFixedQ 2 a.value ++ "%"
  | .price_drop, a => "- **" ++ a.symbol ++ "**: " ++ toFixedQ 2 a.value ++ "%"
  | .volume_spike, a => "- **" ++ a.symbol ++ "**: +" ++ toFixedQ 0 a.value ++ "% volume"
  | .new_token, a => "- " ++ a.message

/-- One rendered group of `formatAlerts`: header, one bullet per alert of the
group (in input order), then a blank line — or nothing when the group is
empty (`if (byType.<type>?.length)`). -/
def sectionOf (alerts : List Alert) (T : AlertType) : List String :=
  let g := alerts.filter (fun a => decide (a.type = T))
  if g.isEmpty then [] else headerOf T :: (g.map (bulletOf T) ++ [""])

/-- The fixed group display order of `formatAlerts`. -/
def displayOrder : List AlertType :=
  [.price_surge, .price_drop, .volume_spike, .new_token]

/-- All lines `formatAlerts` pushes for a non-empty alert list: the fixed
heading block, then the groups in display order. -/
def alertLines (nowIso : String) (alerts : List Alert) : List String :=
  ["# 🚨 Smaira Alerts", "", "Generated: " ++ nowIso, ""] ++
    displayOrder.flatMap (sectionOf alerts)

/-- Embedding of `formatAlerts` from the alerts module (`new Date().toISOString()`
becomes the `nowIso` parameter). -/
def formatAlerts (nowIso : String) (alerts : List Alert) : String :=
  if alerts.length = 0 then "No active alerts."
  else String.intercalate "\n" (alertLines nowIso alerts)

/-- Specification-side restatement of one detection call, following the spec
text: every alert for the call is computed per considered record from the
state as it stood *before* the call, and the outgoing state is the incoming
state with, for every processed record, `lastPriceByAddress[address] =
priceUsd`, `lastVolumeByAddress[address] = volume24h` and `address` added to
`knownAddresses`, with `lastCheckTimestamp` stamped at the end. -/
def detectSpec (tokens : List TokenMarketData) (cfg : AlertConfig)
    (st₀ : AlertState) (now : ℚ) : List Alert × AlertState :=
  ((tokens.filter (considered cfg)).flatMap (tokenAlerts cfg now st₀),
   { lastPrices := (tokens.filter (considered cfg)).foldl
       (fun m t => mapSet m t.address t.priceUsd) st₀.lastPrices
     lastVolumes := (tokens.filter (considered cfg)).foldl
       (fun m t => mapSet m t.address t.volume24h) st₀.lastVolumes
     lastCheck := now
     knownTokens := (tokens.filter (considered cfg)).foldl
       (fun s t => setAdd s t.address) st₀.knownTokens })

/-- Specification-side volume-spike contribution of one record, computed from
the *incoming* state: a spike exists exactly when that state records a prior
volume strictly greater than `0` for the record's address and the percentage
change reaches the threshold, and it carries that percentage as its value. -/
def volumeSpikeSpec (cfg : AlertConfig) (now : ℚ) (st₀ : AlertState)
    (t : TokenMarketData) : List Alert :=
  match st₀.lastVolumes.lookup t.address with
  | none => []
  | some prev =>
    if 0 < prev ∧ cfg.volumeSpikeThreshold ≤ (t.volume24h - prev) / prev * 100 then
      [mkVolumeSpikeAlert cfg now t ((t.volume24h - prev) / prev * 100)]
    else []

/-- Specification-side new-token contribution of one record, computed from the
*incoming* state: a `new_token` alert (severity `medium`, value `0`, threshold
`0`) exists exactly when the address is absent from that state's known set and
the record is verified. -/
def newTokenSpec (now : ℚ) (st₀ : AlertState) (t : TokenMarketData) : List Alert :=
  if st₀.knownTokens.contains t.address = false ∧ t.verified = true then
    [mkNewTokenAlert now t]
  else []

/-- Boolean test for the two price alert kinds. -/
def isPriceB (a : Alert) : Bool :=
  decide (a.type = .price_surge) || decide (a.type = .price_drop)

/-- Boolean test for volume-spike alerts. -/
def isSpikeB (a : Alert) : Bool := decide (a.type = .volume_spike)

/-- Boolean test for new-token alerts. -/
def isNewB (a : Alert) : Bool := decide (a.type = .new_token)

/-- Placeholder alert used only as the default of `List.headD` in witnesses. -/
def defaultAlert : Alert :=
  { type := .new_token, symbol := "", message := "", value := 0, threshold := 0,
    timestamp := 0, severity := .low }

/-- Concrete token-record builder for witnesses and counterexamples. -/
def mkTok (sym addr : String) (price vol change : ℚ) (ver : Bool) : TokenMarketData :=
  { symbol := sym, name := sym, address := addr, priceUsd := price,
    marketCap := none, volume24h := vol, priceChange24h := change,
    liquidity := none, verified := ver, lastUpdated := 0 }

/-- Concrete configuration: the repository defaults (threshold 5 / 200) with
no watchlist filter. -/
def cfgMain : AlertConfig :=
  { priceChangeThreshold := 5, volumeSpikeThreshold := 200, watchlist := [] }

/-- Concrete configuration with an active watchlist containing only `ETH`. -/
def cfgETH : AlertConfig :=
  { priceChangeThreshold := 5, volumeSpikeThreshold := 200, watchlist := ["ETH"] }

/-- Concrete incoming state recording a prior volume of 100 for `0xA`. -/
def stPrev : AlertState :=
  { lastPrices := [], lastVolumes := [("0xA", 100)], lastCheck := 0, knownTokens := [] }

/-- Concrete incoming state recording a prior volume of 1000000 for `0x1`. -/
def stVol : AlertState :=
  { lastPrices := [], lastVolumes := [("0x1", 1000000)], lastCheck := 0,
    knownTokens := ["0x1"] }

/-- First two characters of a string, used to separate rendered line kinds. -/
def front2 (s : String) : List Char := s.data.take 2

/-- Concrete volume-spike alert used by the C9 witness. -/
def aSpike : Alert :=
  { type := .volume_spike, symbol := "ETH", message := "ETH volume spiked 300%",
    value := 300, threshold := 200, timestamp := 0, severity := .low }

/-- First alert of a concrete one-record detection call whose record moves by
+25 percent (used by the C4 witness). -/
def c4a : Alert :=
  ((checkAlerts [mkTok "ETH" "0x1" 3000 1000000 25 false] cfgMain
    (initialAlertState 0) 0).1).headD defaultAlert

end Smaira

namespace Smaira

theorem lookup_mapSet_self (m : List (String × ℚ)) (k : String) (v : ℚ) :
    List.lookup k (mapSet m k v) = some v := by
  induction m with
  | nil => simp [mapSet, List.lookup]
  | cons p rest ih =>
    obtain ⟨k', v'⟩ := p
    by_cases h : k' = k
    · subst h
      simp [mapSet, List.lookup]
    · have hk : (k == k') = false := beq_eq_false_iff_ne.mpr (Ne.symm h)
      simp [mapSet, h, List.lookup, ih, hk]

theorem lookup_mapSet_ne (m : List (String × ℚ)) (k : String) (v : ℚ) (k' : String)
    (h : k' ≠ k) : List.lookup k' (mapSet m k v) = List.lookup k' m := by
  induction m with
  | nil =>
    have hk : (k' == k) = false := beq_eq_false_iff_ne.mpr h
    simp [mapSet, List.lookup, hk]
  | cons p rest ih =>
    obtain ⟨k₀, v₀⟩ := p
    by_cases h0 : k₀ = k
    · subst h0
      have hk : (k' == k₀) = false := beq_eq_false_iff_ne.mpr h
      simp [mapSet, List.lookup, hk]
    · by_cases h1 : k' = k₀
      · subst h1
        simp [mapSet, h0, List.lookup]
      · have hk : (k' == k₀) = false := beq_eq_false_iff_ne.mpr h1
        simp [mapSet, h0, List.lookup, hk, ih]

theorem mem_setAdd {s : List String} {a b : String} :
    b ∈ setAdd s a ↔ b ∈ s ∨ b = a := by
  unfold setAdd
  split_ifs with h
  · constructor
    · exact Or.inl
    · rintro (hb | rfl)
      · exact hb
      · exact h
  · simp

theorem contains_setAdd_self (s : List String) (a : String) :
    (setAdd s a).contains a = true := by
  simp [List.contains, mem_setAdd]

theorem contains_setAdd_ne (s : List String) (a b : String) (h : b ≠ a) :
    (setAdd s a).contains b = s.contains b := by
  simp [List.contains, mem_setAdd, h]

theorem contains_setAdd_of {s : List String} {a b : String}
    (h : s.contains b = true) : (setAdd s a).contains b = true := by
  simp only [List.contains, List.elem_eq_mem, decide_eq_true_eq] at h ⊢
  exact mem_setAdd.mpr (Or.inl h)

theorem tokenAlerts_applyRecord_ne (cfg : AlertConfig) (now : ℚ) (st : AlertState)
    (t t' : TokenMarketData) (h : t'.address ≠ t.address) :
    tokenAlerts cfg now (applyRecord st t) t' = tokenAlerts cfg now st t' := by
  unfold tokenAlerts volumeAlerts newTokenAlerts applyRecord
  simp only [lookup_mapSet_ne _ _ _ _ h, contains_setAdd_ne _ _ _ h]

theorem alertLoop_eq (cfg : AlertConfig) (now : ℚ) :
    ∀ (ts : List TokenMarketData) (acc : List Alert) (st : AlertState),
      (ts.map TokenMarketData.address).Nodup →
      alertLoop cfg now ts acc st =
        (acc ++ (ts.filter (considered cfg)).flatMap (tokenAlerts cfg now st),
         (ts.filter (considered cfg)).foldl applyRecord st)
  | [], acc, st, _ => by simp [alertLoop]
  | t :: ts, acc, st, h => by
    rw [List.map_cons, List.nodup_cons] at h
    obtain ⟨hmem, hnd⟩ := h
    by_cases hc : considered cfg t
    · have hrw : (ts.filter (considered cfg)).flatMap (tokenAlerts cfg now (applyRecord st t)) =
          (ts.filter (considered cfg)).flatMap (tokenAlerts cfg now st) := by
        unfold List.flatMap
        congr 1
        apply List.map_congr_left
        intro x hx
        have hx' : x ∈ ts := List.mem_of_mem_filter hx
        refine tokenAlerts_applyRecord_ne cfg now st t x (fun e => hmem ?_)
        exact e ▸ List.mem_map_of_mem TokenMarketData.address hx'
      simp only [alertLoop, if_pos hc, alertLoop_eq cfg now ts _ _ hnd, hrw,
        List.filter_cons, hc, if_true, List.flatMap_cons, List.foldl_cons,
        List.append_assoc]
    · simp only [alertLoop, if_neg hc, alertLoop_eq cfg now ts _ _ hnd,
        List.filter_cons, hc, if_false, Bool.false_eq_true]

theorem foldl_applyRecord (l : List TokenMarketData) (st : AlertState) :
    l.foldl applyRecord st =
      { lastPrices := l.foldl (fun m t => mapSet m t.address t.priceUsd) st.lastPrices
        lastVolumes := l.foldl (fun m t => mapSet m t.address t.volume24h) st.lastVolumes
        lastCheck := st.lastCheck
        knownTokens := l.foldl (fun s t => setAdd s t.address) st.knownTokens } := by
  induction l generalizing st with
  | nil => rfl
  | cons t ts ih => simp [List.foldl_cons, ih, applyRecord]

theorem contains_foldl_setAdd (l : List TokenMarketData) (s : List String) (a : String)
    (h : s.contains a = true ∨ ∃ t ∈ l, t.address = a) :
    (l.foldl (fun s t => setAdd s t.address) s).contains a = true := by
  induction l generalizing s with
  | nil =>
    rcases h with h | ⟨t, ht, _⟩
    · exact h
    · cases ht
  | cons x xs ih =>
    rw [List.foldl_cons]
    apply ih
    rcases h with h | ⟨t, ht, rfl⟩
    · exact Or.inl (contains_setAdd_of h)
    · rcases List.mem_cons.mp ht with rfl | hx
      · exact Or.inl (contains_setAdd_self _ _)
      · exact Or.inr ⟨t, hx, rfl⟩

theorem contains_foldl_applyRecord {l : List TokenMarketData} {t : TokenMarketData}
    (st : AlertState) (h : t ∈ l) :
    ((l.foldl applyRecord st).knownTokens).contains t.address = true := by
  rw [foldl_applyRecord]
  exact contains_foldl_setAdd l st.knownTokens t.address (Or.inr ⟨t, h, rfl⟩)

theorem filter_price_priceAlerts (cfg : AlertConfig) (now : ℚ) (t : TokenMarketData) :
    (priceAlerts cfg now t).filter isPriceB = priceAlerts cfg now t := by
  unfold priceAlerts
  by_cases h : cfg.priceChangeThreshold ≤ |t.priceChange24h|
  · rw [if_pos h]
    by_cases hs : 0 < t.priceChange24h <;> simp [isPriceB, mkPriceAlert, hs]
  · rw [if_neg h]
    simp

theorem filter_price_volumeAlerts (cfg : AlertConfig) (now : ℚ) (st : AlertState)
    (t : TokenMarketData) : (volumeAlerts cfg now st t).filter isPriceB = [] := by
  unfold volumeAlerts
  split
  · rfl
  · split_ifs <;> simp [isPriceB, mkVolumeSpikeAlert]

theorem filter_price_newTokenAlerts (now : ℚ) (st : AlertState) (t : TokenMarketData) :
    (newTokenAlerts now st t).filter isPriceB = [] := by
  unfold newTokenAlerts
  split_ifs <;> simp [isPriceB, mkNewTokenAlert]

theorem filter_spike_priceAlerts (cfg : AlertConfig) (now : ℚ) (t : TokenMarketData) :
    (priceAlerts cfg now t).filter isSpikeB = [] := by
  unfold priceAlerts
  by_cases h : cfg.priceChangeThreshold ≤ |t.priceChange24h|
  · rw [if_pos h]
    by_cases hs : 0 < t.priceChange24h <;> simp [isSpikeB, mkPriceAlert, hs]
  · rw [if_neg h]
    simp

theorem filter_spike_volumeAlerts (cfg : AlertConfig) (now : ℚ) (st : AlertState)
    (t : TokenMarketData) :
    (volumeAlerts cfg now st t).filter isSpikeB = volumeAlerts cfg now st t := by
  unfold volumeAlerts
  split
  · rfl
  · split_ifs <;> simp [isSpikeB, mkVolumeSpikeAlert]

theorem filter_spike_newTokenAlerts (now : ℚ) (st : AlertState) (t : TokenMarketData) :
    (newTokenAlerts now st t).filter isSpikeB = [] := by
  unfold newTokenAlerts
  split_ifs <;> simp [isSpikeB, mkNewTokenAlert]

theorem filter_new_priceAlerts (cfg : AlertConfig) (now : ℚ) (t : TokenMarketData) :
    (priceAlerts cfg now t).filter isNewB = [] := by
  unfold priceAlerts
  by_cases h : cfg.priceChangeThreshold ≤ |t.priceChange24h|
  · rw [if_pos h]
    by_cases hs : 0 < t.priceChange24h <;> simp [isNewB, mkPriceAlert, hs]
  · rw [if_neg h]
    simp

theorem filter_new_volumeAlerts (cfg : AlertConfig) (now : ℚ) (st : AlertState)
    (t : TokenMarketData) : (volumeAlerts cfg now st t).filter isNewB = [] := by
  unfold volumeAlerts
  split
  · rfl
  · split_ifs <;> simp [isNewB, mkVolumeSpikeAlert]

theorem filter_new_newTokenAlerts (now : ℚ) (st : AlertState) (t : TokenMarketData) :
    (newTokenAlerts now st t).filter isNewB = newTokenAlerts now st t := by
  unfold newTokenAlerts
  split_ifs <;> simp [isNewB, mkNewTokenAlert]

theorem tokenAlerts_filter_price (cfg : AlertConfig) (now : ℚ) (st : AlertState)
    (t : TokenMarketData) :
    (tokenAlerts cfg now st t).filter isPriceB = priceAlerts cfg now t := by
  unfold tokenAlerts
  rw [List.filter_append, List.filter_append, filter_price_priceAlerts,
    filter_price_volumeAlerts, filter_price_newTokenAlerts, List.append_nil,
    List.append_nil]

theorem tokenAlerts_filter_spike (cfg : AlertConfig) (now : ℚ) (st : AlertState)
    (t : TokenMarketData) :
    (tokenAlerts cfg now st t).filter isSpikeB = volumeAlerts cfg now st t := by
  unfold tokenAlerts
  rw [List.filter_append, List.filter_append, filter_spike_priceAlerts,
    filter_spike_volumeAlerts, filter_spike_newTokenAlerts, List.append_nil,
    List.nil_append]

theorem tokenAlerts_filter_new (cfg : AlertConfig) (now : ℚ) (st : AlertState)
    (t : TokenMarketData) :
    (tokenAlerts cfg now st t).filter isNewB = newTokenAlerts now st t := by
  unfold tokenAlerts
  rw [List.filter_append, List.filter_append, filter_new_priceAlerts,
    filter_new_volumeAlerts, filter_new_newTokenAlerts, List.nil_append,
    List.nil_append]

theorem volumeAlerts_eq_spec (cfg : AlertConfig) (now : ℚ) (st : AlertState)
    (t : TokenMarketData) :
    volumeAlerts cfg now st t = volumeSpikeSpec cfg now st t := by
  unfold volumeAlerts volumeSpikeSpec
  split
  · rfl
  · rename_i prev _
    by_cases h1 : 0 < prev
    · by_cases h2 : cfg.volumeSpikeThreshold ≤ (t.volume24h - prev) / prev * 100
      · simp [h1, h2]
      · simp [h1, h2]
    · simp [h1]

theorem newTokenAlerts_eq_spec (now : ℚ) (st : AlertState) (t : TokenMarketData) :
    newTokenAlerts now st t = newTokenSpec now st t := by
  unfold newTokenAlerts newTokenSpec
  by_cases h1 : st.knownTokens.contains t.address
  · simp [h1]
  · by_cases h2 : t.verified
    · simp [h1, h2]
    · simp [h1, h2]

theorem alertLoop_filter_price (cfg : AlertConfig) (now : ℚ) :
    ∀ (ts : List TokenMarketData) (acc : List Alert) (st : AlertState),
      ((alertLoop cfg now ts acc st).1).filter isPriceB =
        acc.filter isPriceB ++ (ts.filter (considered cfg)).flatMap (priceAlerts cfg now)
  | [], acc, st => by simp [alertLoop]
  | t :: ts, acc, st => by
    by_cases hc : considered cfg t
    · simp only [alertLoop, if_pos hc, alertLoop_filter_price cfg now ts,
        List.filter_append, tokenAlerts_filter_price, List.filter_cons, hc, if_true,
        List.flatMap_cons, List.append_assoc]
    · simp only [alertLoop, if_neg hc, alertLoop_filter_price cfg now ts,
        List.filter_cons, hc, if_false, Bool.false_eq_true]

theorem checkAlerts_fst_eq (tokens : List TokenMarketData) (cfg : AlertConfig)
    (st₀ : AlertState) (now : ℚ) (h : (tokens.map TokenMarketData.address).Nodup) :
    (checkAlerts tokens cfg st₀ now).1 =
      (tokens.filter (considered cfg)).flatMap (tokenAlerts cfg now st₀) := by
  unfold checkAlerts
  rw [alertLoop_eq cfg now tokens [] st₀ h]
  simp

theorem checkAlerts_snd_eq (tokens : List TokenMarketData) (cfg : AlertConfig)
    (st₀ : AlertState) (now : ℚ) (h : (tokens.map TokenMarketData.address).Nodup) :
    (checkAlerts tokens cfg st₀ now).2 =
      { lastPrices := (tokens.filter (considered cfg)).foldl
          (fun m t => mapSet m t.address t.priceUsd) st₀.lastPrices
        lastVolumes := (tokens.filter (considered cfg)).foldl
          (fun m t => mapSet m t.address t.volume24h) st₀.lastVolumes
        lastCheck := now
        knownTokens := (tokens.filter (considered cfg)).foldl
          (fun s t => setAdd s t.address) st₀.knownTokens } := by
  unfold checkAlerts
  rw [alertLoop_eq cfg now tokens [] st₀ h]
  simp [foldl_applyRecord]

theorem checkAlerts_filter_price_eq (tokens : List TokenMarketData) (cfg : AlertConfig)
    (st₀ : AlertState) (now : ℚ) :
    (checkAlerts tokens cfg st₀ now).1.filter isPriceB =
      (tokens.filter (considered cfg)).flatMap (priceAlerts cfg now) := by
  unfold checkAlerts
  rw [alertLoop_filter_price cfg now tokens [] st₀]
  rfl

theorem checkAlerts_filter_spike_eq (tokens : List TokenMarketData) (cfg : AlertConfig)
    (st₀ : AlertState) (now : ℚ) (h : (tokens.map TokenMarketData.address).Nodup) :
    (checkAlerts tokens cfg st₀ now).1.filter isSpikeB =
      (tokens.filter (considered cfg)).flatMap (volumeSpikeSpec cfg now st₀) := by
  rw [checkAlerts_fst_eq tokens cfg st₀ now h, List.filter_flatMap]
  exact List.flatMap_congr fun t _ => by
    rw [tokenAlerts_filter_spike, volumeAlerts_eq_spec]

theorem checkAlerts_filter_new_eq (tokens : List TokenMarketData) (cfg : AlertConfig)
    (st₀ : AlertState) (now : ℚ) (h : (tokens.map TokenMarketData.address).Nodup) :
    (checkAlerts tokens cfg st₀ now).1.filter isNewB =
      (tokens.filter (considered cfg)).flatMap (newTokenSpec now st₀) := by
  rw [checkAlerts_fst_eq tokens cfg st₀ now h, List.filter_flatMap]
  exact List.flatMap_congr fun t _ => by
    rw [tokenAlerts_filter_new, newTokenAlerts_eq_spec]

theorem checkAlerts_knownTokens_contains (tokens : List TokenMarketData)
    (cfg : AlertConfig) (st₀ : AlertState) (now : ℚ) {t : TokenMarketData}
    (h : (tokens.map TokenMarketData.address).Nodup) (hmem : t ∈ tokens)
    (hc : considered cfg t = true) :
    ((checkAlerts tokens cfg st₀ now).2.knownTokens).contains t.address = true := by
  rw [checkAlerts_snd_eq tokens cfg st₀ now h]
  exact contains_foldl_setAdd _ _ _
    (Or.inr ⟨t, List.mem_filter.mpr ⟨hmem, hc⟩, rfl⟩)


/-- C1: on a batch whose record addresses are pairwise distinct (the spec's
batch invariant), one detection call returns exactly the alerts computed per
considered record from the state as it stood before the call, and the
post-call state is the pre-call state with, for every processed record,
`lastPrices[address] = priceUsd`, `lastVolumes[address] = volume24h` and
`address` added to `knownTokens`, with `lastCheck` stamped — regardless of
whether any alert fired for the record. -/
theorem checkAlerts_matches_detectSpec (tokens : List TokenMarketData)
    (cfg : AlertConfig) (st₀ : AlertState) (now : ℚ)
    (h : (tokens.map TokenMarketData.address).Nodup) :
    checkAlerts tokens cfg st₀ now = detectSpec tokens cfg st₀ now := by
  unfold detectSpec
  exact Prod.ext (checkAlerts_fst_eq tokens cfg st₀ now h)
    (checkAlerts_snd_eq tokens cfg st₀ now h)

/-- Witness for C1 at a concrete two-record batch with distinct addresses and
a non-empty incoming state. -/
theorem checkAlerts_matches_detectSpec_witness :
    (([mkTok "AAA" "0xA" 10 100 6 true, mkTok "BBB" "0xB" 20 200 0 false].map
        TokenMarketData.address).Nodup) ∧
    checkAlerts [mkTok "AAA" "0xA" 10 100 6 true, mkTok "BBB" "0xB" 20 200 0 false]
        cfgMain stPrev 0 =
      detectSpec [mkTok "AAA" "0xA" 10 100 6 true, mkTok "BBB" "0xB" 20 200 0 false]
        cfgMain stPrev 0 :=
  ⟨by decide, checkAlerts_matches_detectSpec _ _ _ _ (by decide)⟩

/-- C2 counterexample: the claim quantifies over every input batch and every
record, but it fails on the code. First conjunct: a batch repeating one
address emits a `volume_spike` although the incoming state records no volume
at all for that address (the in-call state update of the first record feeds
the second). Remaining conjuncts: with an active watchlist, a record whose
prior volume is 100 and whose change is 9900 percent (≥ threshold 200) emits
nothing, refuting the claimed "emitted iff" direction. -/
theorem c2_counterexample :
    ((checkAlerts [mkTok "FOO" "0xA" 1 100 0 false, mkTok "FOO" "0xA" 1 10000 0 false]
        cfgMain (initialAlertState 0) 0).1.countP isSpikeB = 1) ∧
    (initialAlertState 0).lastVolumes = [] ∧
    ((checkAlerts [mkTok "FOO" "0xA" 1 10000 0 false] cfgETH stPrev 0).1 = []) ∧
    stPrev.lastVolumes.lookup "0xA" = some 100 := by
  refine ⟨?_, rfl, ?_, rfl⟩
  · norm_num [checkAlerts, alertLoop, considered, tokenAlerts, priceAlerts,
      volumeAlerts, newTokenAlerts, applyRecord, mkTok, cfgMain, initialAlertState,
      mapSet, setAdd, List.lookup, isSpikeB, mkVolumeSpikeAlert, List.countP_cons]
  · decide

/-- C2 (amended): on a batch with pairwise-distinct addresses, the
volume-spike alerts of one detection call are exactly the per-record spikes
computed from the *incoming* state over the records admitted by the watchlist
filter; in particular every `volume_spike` alert comes from a record whose
address had a prior recorded volume strictly greater than 0 in the incoming
state, and carries `(volume24h - prev) / prev * 100 ≥ volumeSpikeThreshold`
as its value. -/
theorem checkAlerts_volume_spike_spec (tokens : List TokenMarketData)
    (cfg : AlertConfig) (st₀ : AlertState) (now : ℚ)
    (h : (tokens.map TokenMarketData.address).Nodup) :
    (checkAlerts tokens cfg st₀ now).1.filter isSpikeB =
      (tokens.filter (considered cfg)).flatMap (volumeSpikeSpec cfg now st₀) ∧
    ∀ a ∈ (checkAlerts tokens cfg st₀ now).1, a.type = .volume_spike →
      ∃ t ∈ tokens, ∃ prev, st₀.lastVolumes.lookup t.address = some prev ∧ 0 < prev ∧
        a.value = (t.volume24h - prev) / prev * 100 ∧
        cfg.volumeSpikeThreshold ≤ a.value ∧ a.symbol = t.symbol := by
  refine ⟨checkAlerts_filter_spike_eq tokens cfg st₀ now h, ?_⟩
  intro a ha hty
  have haf : a ∈ (checkAlerts tokens cfg st₀ now).1.filter isSpikeB :=
    List.mem_filter.mpr ⟨ha, by simp [isSpikeB, hty]⟩
  rw [checkAlerts_filter_spike_eq tokens cfg st₀ now h, List.mem_flatMap] at haf
  obtain ⟨t, htf, hat⟩ := haf
  refine ⟨t, List.mem_of_mem_filter htf, ?_⟩
  unfold volumeSpikeSpec at hat
  split at hat
  · cases hat
  · rename_i prev hl
    split at hat
    · rename_i hc
      have hae := List.mem_singleton.mp hat
      subst hae
      exact ⟨prev, hl, hc.1, rfl, hc.2, rfl⟩
    · cases hat

/-- Witness for the amended C2 at a concrete one-record call whose incoming
state holds a prior volume of 1000000 for the record's address. -/
theorem checkAlerts_volume_spike_spec_witness :
    (([mkTok "ETH" "0x1" 3000 4000000 0 false].map TokenMarketData.address).Nodup) ∧
    ((checkAlerts [mkTok "ETH" "0x1" 3000 4000000 0 false] cfgMain stVol 0).1.filter
        isSpikeB =
      ([mkTok "ETH" "0x1" 3000 4000000 0 false].filter (considered cfgMain)).flatMap
        (volumeSpikeSpec cfgMain 0 stVol) ∧
    ∀ a ∈ (checkAlerts [mkTok "ETH" "0x1" 3000 4000000 0 false] cfgMain stVol 0).1,
      a.type = .volume_spike →
      ∃ t ∈ [mkTok "ETH" "0x1" 3000 4000000 0 false], ∃ prev,
        stVol.lastVolumes.lookup t.address = some prev ∧ 0 < prev ∧
        a.value = (t.volume24h - prev) / prev * 100 ∧
        cfgMain.volumeSpikeThreshold ≤ a.value ∧ a.symbol = t.symbol) :=
  ⟨by decide, checkAlerts_volume_spike_spec _ _ _ _ (by decide)⟩

/-- C3 counterexample: the claimed "iff" fails on the code. First three
conjuncts: a verified record whose address is absent from the incoming known
set is skipped by an active watchlist and emits nothing. Last conjunct: a
batch repeating one verified unknown address emits only one `new_token`,
although both records are verified with an address absent from the incoming
state. -/
theorem c3_counterexample :
    ((checkAlerts [mkTok "FOO" "0xF" 1 0 0 true] cfgETH (initialAlertState 0) 0).1 = []) ∧
    ((initialAlertState 0).knownTokens.contains "0xF" = false) ∧
    ((mkTok "FOO" "0xF" 1 0 0 true).verified = true) ∧
    ((checkAlerts [mkTok "FOO" "0xA" 1 0 0 true, mkTok "FOO" "0xA" 1 0 0 true] cfgMain
        (initialAlertState 0) 0).1.countP isNewB = 1) := by
  refine ⟨by decide, by decide, by decide, ?_⟩
  norm_num [checkAlerts, alertLoop, considered, tokenAlerts, priceAlerts,
    volumeAlerts, newTokenAlerts, applyRecord, mkTok, cfgMain, initialAlertState,
    mapSet, setAdd, List.lookup, isNewB, mkNewTokenAlert, List.countP_cons]

/-- C3 (amended): on batches with pairwise-distinct addresses, the
`new_token` alerts of a call are exactly the per-record contributions over
the watchlist-admitted records, computed from the incoming state: one alert
(severity `medium`, value 0, threshold 0) iff the address is absent from the
incoming `knownTokens` and the record is verified.  Moreover any record of a
second call whose address was processed (considered) by the first call
contributes no `new_token`, whatever its verified flag. -/
theorem checkAlerts_new_token_spec (tokens₁ tokens₂ : List TokenMarketData)
    (cfg₁ cfg₂ : AlertConfig) (st₀ : AlertState) (now₁ now₂ : ℚ)
    (h₁ : (tokens₁.map TokenMarketData.address).Nodup)
    (h₂ : (tokens₂.map TokenMarketData.address).Nodup) :
    (checkAlerts tokens₁ cfg₁ st₀ now₁).1.filter isNewB =
      (tokens₁.filter (considered cfg₁)).flatMap (newTokenSpec now₁ st₀) ∧
    (checkAlerts tokens₂ cfg₂ (checkAlerts tokens₁ cfg₁ st₀ now₁).2 now₂).1.filter
        isNewB =
      (tokens₂.filter (considered cfg₂)).flatMap
        (newTokenSpec now₂ (checkAlerts tokens₁ cfg₁ st₀ now₁).2) ∧
    ∀ t₂ ∈ tokens₂,
      (∃ t₁ ∈ tokens₁, considered cfg₁ t₁ = true ∧ t₁.address = t₂.address) →
      newTokenSpec now₂ (checkAlerts tokens₁ cfg₁ st₀ now₁).2 t₂ = [] := by
  refine ⟨checkAlerts_filter_new_eq tokens₁ cfg₁ st₀ now₁ h₁,
    checkAlerts_filter_new_eq tokens₂ cfg₂ _ now₂ h₂, ?_⟩
  rintro t₂ _ ⟨t₁, hmem₁, hc₁, haddr⟩
  have hk : ((checkAlerts tokens₁ cfg₁ st₀ now₁).2.knownTokens).contains t₂.address
      = true := by
    rw [← haddr]
    exact checkAlerts_knownTokens_contains tokens₁ cfg₁ st₀ now₁ h₁ hmem₁ hc₁
  unfold newTokenSpec
  rw [hk]
  simp

/-- Witness for the amended C3: one verified unknown record processed in call
one, the same address observed again in call two. -/
theorem checkAlerts_new_token_spec_witness :
    (([mkTok "NEW" "0xN" 1 0 0 true].map TokenMarketData.address).Nodup) ∧
    ((checkAlerts [mkTok "NEW" "0xN" 1 0 0 true] cfgMain (initialAlertState 0) 0).1.filter
        isNewB =
      ([mkTok "NEW" "0xN" 1 0 0 true].filter (considered cfgMain)).flatMap
        (newTokenSpec 0 (initialAlertState 0)) ∧
    (checkAlerts [mkTok "NEW" "0xN" 1 0 0 true] cfgMain
        (checkAlerts [mkTok "NEW" "0xN" 1 0 0 true] cfgMain (initialAlertState 0) 0).2
        1).1.filter isNewB =
      ([mkTok "NEW" "0xN" 1 0 0 true].filter (considered cfgMain)).flatMap
        (newTokenSpec 1
          (checkAlerts [mkTok "NEW" "0xN" 1 0 0 true] cfgMain (initialAlertState 0) 0).2) ∧
    ∀ t₂ ∈ [mkTok "NEW" "0xN" 1 0 0 true],
      (∃ t₁ ∈ [mkTok "NEW" "0xN" 1 0 0 true], considered cfgMain t₁ = true ∧
        t₁.address = t₂.address) →
      newTokenSpec 1
          (checkAlerts [mkTok "NEW" "0xN" 1 0 0 true] cfgMain (initialAlertState 0) 0).2
          t₂ = []) :=
  ⟨by decide, checkAlerts_new_token_spec _ _ _ _ _ _ _ (by decide) (by decide)⟩



theorem priceSeverity_spec (c : ℚ) :
    (priceSeverity c = .high ↔ 20 < |c|) ∧
    (priceSeverity c = .medium ↔ 10 < |c| ∧ |c| ≤ 20) ∧
    (priceSeverity c = .low ↔ |c| ≤ 10) := by
  unfold priceSeverity
  split_ifs with h1 h2 <;> refine ⟨?_, ?_, ?_⟩ <;> simp_all <;> linarith

/-- C4: every price alert of a detection call carries the configured
threshold, a value whose magnitude reaches it, the kind matching the sign of
the value, and the claimed severity cut points: `high` iff `20 < |value|`,
`medium` iff `10 < |value| ≤ 20`, `low` iff `threshold ≤ |value| ≤ 10`.
Conversely a considered record produces a price alert iff
`threshold ≤ |priceChange24h|`. -/
theorem checkAlerts_price_severity (tokens : List TokenMarketData)
    (cfg : AlertConfig) (st₀ : AlertState) (now : ℚ) :
    (∀ a ∈ (checkAlerts tokens cfg st₀ now).1,
      a.type = .price_surge ∨ a.type = .price_drop →
      a.threshold = cfg.priceChangeThreshold ∧
      cfg.priceChangeThreshold ≤ |a.value| ∧
      (0 < a.value → a.type = .price_surge) ∧
      (a.value < 0 → a.type = .price_drop) ∧
      (a.severity = .high ↔ 20 < |a.value|) ∧
      (a.severity = .medium ↔ 10 < |a.value| ∧ |a.value| ≤ 20) ∧
      (a.severity = .low ↔ a.threshold ≤ |a.value| ∧ |a.value| ≤ 10)) ∧
    (∀ t ∈ tokens, considered cfg t = true →
      (cfg.priceChangeThreshold ≤ |t.priceChange24h| ↔
        ∃ a ∈ (checkAlerts tokens cfg st₀ now).1,
          (a.type = .price_surge ∨ a.type = .price_drop) ∧
          a.value = t.priceChange24h ∧ a.symbol = t.symbol)) := by
  have part1 : ∀ a ∈ (checkAlerts tokens cfg st₀ now).1,
      a.type = .price_surge ∨ a.type = .price_drop →
      a.threshold = cfg.priceChangeThreshold ∧
      cfg.priceChangeThreshold ≤ |a.value| ∧
      (0 < a.value → a.type = .price_surge) ∧
      (a.value < 0 → a.type = .price_drop) ∧
      (a.severity = .high ↔ 20 < |a.value|) ∧
      (a.severity = .medium ↔ 10 < |a.value| ∧ |a.value| ≤ 20) ∧
      (a.severity = .low ↔ a.threshold ≤ |a.value| ∧ |a.value| ≤ 10) := by
    intro a ha hty
    have haf : a ∈ (checkAlerts tokens cfg st₀ now).1.filter isPriceB :=
      List.mem_filter.mpr ⟨ha, by
        rcases hty with hty | hty <;> simp [isPriceB, hty]⟩
    rw [checkAlerts_filter_price_eq, List.mem_flatMap] at haf
    obtain ⟨t, _, hat⟩ := haf
    unfold priceAlerts at hat
    split at hat
    · rename_i hthr
      have hae := List.mem_singleton.mp hat
      subst hae
      refine ⟨rfl, hthr, ?_, ?_, ?_, ?_, ?_⟩
      · intro hv
        have hv' : 0 < t.priceChange24h := hv
        simp [mkPriceAlert, hv']
      · intro hv
        have hv' : ¬0 < t.priceChange24h := not_lt.mpr (le_of_lt hv)
        simp [mkPriceAlert, hv']
      · exact (priceSeverity_spec t.priceChange24h).1
      · exact (priceSeverity_spec t.priceChange24h).2.1
      · constructor
        · intro hl
          exact ⟨hthr, (priceSeverity_spec t.priceChange24h).2.2.mp hl⟩
        · intro hh
          exact (priceSeverity_spec t.priceChange24h).2.2.mpr hh.2
    · cases hat
  refine ⟨part1, ?_⟩
  intro t ht hc
  constructor
  · intro hthr
    have hmem : mkPriceAlert cfg now t ∈
        (checkAlerts tokens cfg st₀ now).1.filter isPriceB := by
      rw [checkAlerts_filter_price_eq, List.mem_flatMap]
      refine ⟨t, List.mem_filter.mpr ⟨ht, hc⟩, ?_⟩
      unfold priceAlerts
      rw [if_pos hthr]
      exact List.mem_singleton.mpr rfl
    refine ⟨mkPriceAlert cfg now t, List.mem_of_mem_filter hmem, ?_, rfl, rfl⟩
    by_cases hs : 0 < t.priceChange24h
    · exact Or.inl (by simp [mkPriceAlert, hs])
    · exact Or.inr (by simp [mkPriceAlert, hs])
  · rintro ⟨a, ha, hty, hval, _⟩
    have hp := part1 a ha hty
    rw [← hval]
    exact hp.2.1

/-- Witness for C4: the call on one record with `priceChange24h = 25` emits
an alert satisfying every clause, severity `high`. -/
theorem checkAlerts_price_severity_witness :
    c4a ∈ (checkAlerts [mkTok "ETH" "0x1" 3000 1000000 25 false] cfgMain
      (initialAlertState 0) 0).1 ∧
    (c4a.type = .price_surge ∨ c4a.type = .price_drop) ∧
    (c4a.threshold = cfgMain.priceChangeThreshold ∧
      cfgMain.priceChangeThreshold ≤ |c4a.value| ∧
      (0 < c4a.value → c4a.type = .price_surge) ∧
      (c4a.value < 0 → c4a.type = .price_drop) ∧
      (c4a.severity = .high ↔ 20 < |c4a.value|) ∧
      (c4a.severity = .medium ↔ 10 < |c4a.value| ∧ |c4a.value| ≤ 20) ∧
      (c4a.severity = .low ↔ c4a.threshold ≤ |c4a.value| ∧ |c4a.value| ≤ 10)) :=
  have h1 : c4a ∈ (checkAlerts [mkTok "ETH" "0x1" 3000 1000000 25 false] cfgMain
      (initialAlertState 0) 0).1 := by
    norm_num [c4a, checkAlerts, alertLoop, considered, tokenAlerts, priceAlerts,
      volumeAlerts, newTokenAlerts, applyRecord, mkTok, cfgMain, initialAlertState,
      mapSet, setAdd, List.lookup]
  have h2 : c4a.type = .price_surge ∨ c4a.type = .price_drop := by
    refine Or.inl ?_
    norm_num [c4a, checkAlerts, alertLoop, considered, tokenAlerts, priceAlerts,
      volumeAlerts, newTokenAlerts, applyRecord, mkTok, cfgMain, initialAlertState,
      mapSet, setAdd, List.lookup, mkPriceAlert]
  ⟨h1, h2, (checkAlerts_price_severity [mkTok "ETH" "0x1" 3000 1000000 25 false]
    cfgMain (initialAlertState 0) 0).1 c4a h1 h2⟩

/-- C5 (scenario B): the first call records 1000000 as last volume of `0x1`;
the second call, observing volume 4000000 at spike threshold 200, emits
exactly one alert, a `volume_spike` of value exactly 300 and severity `low`. -/
theorem scenarioB_volume_spike :
    cfgMain.volumeSpikeThreshold = 200 ∧
    ((checkAlerts [mkTok "ETH" "0x1" 3000 1000000 0 false] cfgMain
        (initialAlertState 0) 0).2.lastVolumes.lookup "0x1" = some 1000000) ∧
    ((checkAlerts [mkTok "ETH" "0x1" 3000 4000000 0 false] cfgMain
        (checkAlerts [mkTok "ETH" "0x1" 3000 1000000 0 false] cfgMain
          (initialAlertState 0) 0).2 1).1.map Alert.type = [.volume_spike]) ∧
    ((checkAlerts [mkTok "ETH" "0x1" 3000 4000000 0 false] cfgMain
        (checkAlerts [mkTok "ETH" "0x1" 3000 1000000 0 false] cfgMain
          (initialAlertState 0) 0).2 1).1.map Alert.value = [300]) ∧
    ((checkAlerts [mkTok "ETH" "0x1" 3000 4000000 0 false] cfgMain
        (checkAlerts [mkTok "ETH" "0x1" 3000 1000000 0 false] cfgMain
          (initialAlertState 0) 0).2 1).1.map Alert.severity = [.low]) := by
  refine ⟨rfl, ?_, ?_, ?_, ?_⟩ <;>
    · norm_num [checkAlerts, alertLoop, considered, tokenAlerts, priceAlerts,
        volumeAlerts, newTokenAlerts, applyRecord, mkTok, cfgMain, initialAlertState,
        mapSet, setAdd, List.lookup, mkVolumeSpikeAlert, volumeSeverity]



/-- C6 counterexample: the watchlist match is not case-insensitive in both
directions.  A record whose symbol "ETH" matches the configured entry "eth"
up to case (their uppercased forms agree) is nevertheless excluded, because
the code uppercases only the record's symbol and compares it against the
configured entries verbatim. -/
theorem c6_counterexample :
    upperStr ((mkTok "ETH" "0x1" 3000 0 0 true).symbol) = upperStr "eth" ∧
    (getMarketSnapshot [mkTok "ETH" "0x1" 3000 0 0 true] ["eth"] "mainnet" 0).watchlist
      = [] := by
  exact ⟨by decide, by decide⟩

/-- C6 (amended): the snapshot watchlist is drawn from the full unfiltered
record list, and a record is included iff its symbol, uppercased, equals some
configured watchlist entry *verbatim* — case-insensitive on the record side
only. -/
theorem getMarketSnapshot_watchlist_mem (tokens : List TokenMarketData)
    (wl : List String) (network : String) (now : ℚ) (t : TokenMarketData)
    (h : t ∈ tokens) :
    t ∈ (getMarketSnapshot tokens wl network now).watchlist ↔
      ∃ w ∈ wl, upperStr t.symbol = w := by
  simp only [getMarketSnapshot, List.mem_filter, h, true_and]
  simp only [List.contains, List.elem_eq_mem, decide_eq_true_eq]
  constructor
  · intro hm
    exact ⟨upperStr t.symbol, hm, rfl⟩
  · rintro ⟨w, hw, rfl⟩
    exact hw

/-- Witness for the amended C6: a record with symbol "eth" and zero volume is
included when the configured watchlist holds "ETH". -/
theorem getMarketSnapshot_watchlist_mem_witness :
    mkTok "eth" "0x1" 3000 0 0 true ∈
      (getMarketSnapshot [mkTok "eth" "0x1" 3000 0 0 true] ["ETH"] "mainnet" 0).watchlist ∧
    (mkTok "eth" "0x1" 3000 0 0 true).volume24h = 0 :=
  ⟨(getMarketSnapshot_watchlist_mem [mkTok "eth" "0x1" 3000 0 0 true] ["ETH"]
      "mainnet" 0 (mkTok "eth" "0x1" 3000 0 0 true) (by decide)).mpr
    ⟨"ETH", by decide, by decide⟩, by decide⟩

theorem foldl_add_volume (l : List TokenMarketData) (c : ℚ) :
    l.foldl (fun sum t => sum + t.volume24h) c =
      c + (l.map TokenMarketData.volume24h).sum := by
  induction l generalizing c with
  | nil => simp
  | cons t ts ih =>
    rw [List.foldl_cons, ih]
    simp [List.map_cons, List.sum_cons]
    ring

/-- C7: the snapshot's `totalVolume24h` is the sum of `volume24h` over
exactly the records with strictly positive volume, and is 0 whenever every
record has zero volume (in particular for the empty batch). -/
theorem getMarketSnapshot_totalVolume (tokens : List TokenMarketData)
    (wl : List String) (network : String) (now : ℚ) :
    (getMarketSnapshot tokens wl network now).totalVolume24h =
      ((tokens.filter fun t => decide (0 < t.volume24h)).map
        TokenMarketData.volume24h).sum ∧
    ((∀ t ∈ tokens, t.volume24h = 0) →
      (getMarketSnapshot tokens wl network now).totalVolume24h = 0) := by
  have h1 : (getMarketSnapshot tokens wl network now).totalVolume24h =
      ((tokens.filter fun t => decide (0 < t.volume24h)).map
        TokenMarketData.volume24h).sum := by
    simp only [getMarketSnapshot]
    rw [foldl_add_volume]
    simp
  refine ⟨h1, fun hz => ?_⟩
  rw [h1]
  have he : tokens.filter (fun t => decide (0 < t.volume24h)) = [] := by
    rw [List.filter_eq_nil_iff]
    intro t ht
    simp [hz t ht]
  rw [he]
  simp

/-- Witness for C7 at a batch holding one zero-volume record: both the sum
identity and the all-zero clause evaluate. -/
theorem getMarketSnapshot_totalVolume_witness :
    (getMarketSnapshot [mkTok "Z" "0xZ" 1 0 0 false] [] "mainnet" 0).totalVolume24h =
      (([mkTok "Z" "0xZ" 1 0 0 false].filter fun t => decide (0 < t.volume24h)).map
        TokenMarketData.volume24h).sum ∧
    (getMarketSnapshot [mkTok "Z" "0xZ" 1 0 0 false] [] "mainnet" 0).totalVolume24h = 0 :=
  ⟨(getMarketSnapshot_totalVolume [mkTok "Z" "0xZ" 1 0 0 false] [] "mainnet" 0).1,
   (getMarketSnapshot_totalVolume [mkTok "Z" "0xZ" 1 0 0 false] [] "mainnet" 0).2
     (by decide)⟩

/-- C8: `topGainers` holds only positive-change, positive-volume records of
the batch sorted non-increasingly by change with at most 10 entries;
`topLosers` holds only negative-change, positive-volume records sorted
non-decreasingly (most negative first) with at most 10 entries; no
zero-change record appears in either. -/
theorem getMarketSnapshot_movers (tokens : List TokenMarketData)
    (wl : List String) (network : String) (now : ℚ) :
    (∀ t ∈ (getMarketSnapshot tokens wl network now).topGainers,
      0 < t.priceChange24h ∧ 0 < t.volume24h ∧ t ∈ tokens) ∧
    (∀ t ∈ (getMarketSnapshot tokens wl network now).topLosers,
      t.priceChange24h < 0 ∧ 0 < t.volume24h ∧ t ∈ tokens) ∧
    (getMarketSnapshot tokens wl network now).topGainers.Pairwise
      (fun a b => b.priceChange24h ≤ a.priceChange24h) ∧
    (getMarketSnapshot tokens wl network now).topLosers.Pairwise
      (fun a b => a.priceChange24h ≤ b.priceChange24h) ∧
    (getMarketSnapshot tokens wl network now).topGainers.length ≤ 10 ∧
    (getMarketSnapshot tokens wl network now).topLosers.length ≤ 10 := by
  have hg : (getMarketSnapshot tokens wl network now).topGainers =
      (((tokens.filter fun t => decide (0 < t.volume24h)).filter
          fun t => decide (0 < t.priceChange24h)).mergeSort
        (fun a b => decide (b.priceChange24h ≤ a.priceChange24h))).take 10 := rfl
  have hl : (getMarketSnapshot tokens wl network now).topLosers =
      (((tokens.filter fun t => decide (0 < t.volume24h)).filter
          fun t => decide (t.priceChange24h < 0)).mergeSort
        (fun a b => decide (a.priceChange24h ≤ b.priceChange24h))).take 10 := rfl
  refine ⟨?_, ?_, ?_, ?_, ?_, ?_⟩
  · intro t ht
    rw [hg] at ht
    have h1 := List.mem_mergeSort.mp (List.mem_of_mem_take ht)
    have h2 := List.mem_filter.mp h1
    have h3 := List.mem_filter.mp h2.1
    refine ⟨by simpa using h2.2, by simpa using h3.2, h3.1⟩
  · intro t ht
    rw [hl] at ht
    have h1 := List.mem_mergeSort.mp (List.mem_of_mem_take ht)
    have h2 := List.mem_filter.mp h1
    have h3 := List.mem_filter.mp h2.1
    refine ⟨by simpa using h2.2, by simpa using h3.2, h3.1⟩
  · rw [hg]
    refine List.Pairwise.sublist (List.take_sublist _ _) ?_
    have hs := @List.sorted_mergeSort TokenMarketData
      (fun a b : TokenMarketData => decide (b.priceChange24h ≤ a.priceChange24h))
      (fun a b c hab hbc => by
        simp only [decide_eq_true_eq] at *
        exact le_trans hbc hab)
      (fun a b => by
        simp only [Bool.or_eq_true, decide_eq_true_eq]
        exact le_total b.priceChange24h a.priceChange24h)
      ((tokens.filter fun t => decide (0 < t.volume24h)).filter
          fun t => decide (0 < t.priceChange24h))
    exact hs.imp (by simp)
  · rw [hl]
    refine List.Pairwise.sublist (List.take_sublist _ _) ?_
    have hs := @List.sorted_mergeSort TokenMarketData
      (fun a b : TokenMarketData => decide (a.priceChange24h ≤ b.priceChange24h))
      (fun a b c hab hbc => by
        simp only [decide_eq_true_eq] at *
        exact le_trans hab hbc)
      (fun a b => by
        simp only [Bool.or_eq_true, decide_eq_true_eq]
        exact le_total a.priceChange24h b.priceChange24h)
      ((tokens.filter fun t => decide (0 < t.volume24h)).filter
          fun t => decide (t.priceChange24h < 0))
    exact hs.imp (by simp)
  · rw [hg]
    exact List.length_take_le 10 _
  · rw [hl]
    exact List.length_take_le 10 _

/-- Witness for C8 at a two-record batch with one gainer and one loser. -/
theorem getMarketSnapshot_movers_witness :
    (0 < (mkTok "A" "0xA" 1 10 7 false).priceChange24h ∧
      0 < (mkTok "A" "0xA" 1 10 7 false).volume24h ∧
      mkTok "A" "0xA" 1 10 7 false ∈
        [mkTok "A" "0xA" 1 10 7 false, mkTok "B" "0xB" 1 10 (-3) false]) ∧
    ((mkTok "B" "0xB" 1 10 (-3) false).priceChange24h < 0 ∧
      0 < (mkTok "B" "0xB" 1 10 (-3) false).volume24h ∧
      mkTok "B" "0xB" 1 10 (-3) false ∈
        [mkTok "A" "0xA" 1 10 7 false, mkTok "B" "0xB" 1 10 (-3) false]) :=
  have hga : mkTok "A" "0xA" 1 10 7 false ∈
      (getMarketSnapshot [mkTok "A" "0xA" 1 10 7 false, mkTok "B" "0xB" 1 10 (-3) false]
        [] "mainnet" 0).topGainers := by
    norm_num [getMarketSnapshot, mkTok, List.mergeSort_singleton]
  have hlo : mkTok "B" "0xB" 1 10 (-3) false ∈
      (getMarketSnapshot [mkTok "A" "0xA" 1 10 7 false, mkTok "B" "0xB" 1 10 (-3) false]
        [] "mainnet" 0).topLosers := by
    norm_num [getMarketSnapshot, mkTok, List.mergeSort_singleton]
  ⟨(getMarketSnapshot_movers [mkTok "A" "0xA" 1 10 7 false,
      mkTok "B" "0xB" 1 10 (-3) false] [] "mainnet" 0).1 _ hga,
   (getMarketSnapshot_movers [mkTok "A" "0xA" 1 10 7 false,
      mkTok "B" "0xB" 1 10 (-3) false] [] "mainnet" 0).2.1 _ hlo⟩

/-- C10: the single-token price lookup returns `none` exactly when either no
record's uppercased symbol matches the queried symbol, or the first matching
record has `priceUsd` exactly 0 — a zero price is coerced to `none`. -/
theorem getTokenPrice_zero_coerced (tokens : List TokenMarketData) (sym : String) :
    (getTokenPrice tokens sym = none ↔
      tokens.find? (fun t => decide (upperStr t.symbol = upperStr sym)) = none ∨
      ∃ t, tokens.find? (fun t => decide (upperStr t.symbol = upperStr sym)) = some t ∧
        t.priceUsd = 0) ∧
    (tokens.find? (fun t => decide (upperStr t.symbol = upperStr sym)) = none ↔
      ∀ t ∈ tokens, upperStr t.symbol ≠ upperStr sym) := by
  constructor
  · constructor
    · intro h0
      unfold getTokenPrice at h0
      split at h0
      · rename_i hf
        exact Or.inl hf
      · rename_i t hf
        split_ifs at h0 with hp
        · exact Or.inr ⟨t, hf, hp⟩
    · rintro (hf | ⟨t, hf, hp⟩)
      · unfold getTokenPrice
        rw [hf]
      · unfold getTokenPrice
        rw [hf]
        simp [hp]
  · rw [List.find?_eq_none]
    simp

/-- Witness for C10: a known symbol whose observed price is exactly 0 yields
`none`, indistinguishable from an unknown symbol. -/
theorem getTokenPrice_zero_coerced_witness :
    getTokenPrice [mkTok "ETH" "0x1" 0 5 0 true] "eth" = none ∧
    (mkTok "ETH" "0x1" 0 5 0 true).priceUsd = 0 :=
  ⟨(getTokenPrice_zero_coerced [mkTok "ETH" "0x1" 0 5 0 true] "eth").1.mpr
    (Or.inr ⟨mkTok "ETH" "0x1" 0 5 0 true, by decide, by decide⟩), by decide⟩



theorem front2_bulletOf (T : AlertType) (a : Alert) :
    front2 (bulletOf T a) = ['-', ' '] := by
  cases T <;> (simp only [bulletOf, front2, String.data_append]; rfl)

theorem front2_generated (nowIso : String) :
    front2 ("Generated: " ++ nowIso) = ['G', 'e'] := by
  simp only [front2, String.data_append]
  rfl

theorem headerOf_mem_sectionOf (alerts : List Alert) (T T' : AlertType) :
    headerOf T ∈ sectionOf alerts T' ↔
      T = T' ∧ alerts.filter (fun a => decide (a.type = T')) ≠ [] := by
  unfold sectionOf
  by_cases hg : (alerts.filter (fun a => decide (a.type = T'))).isEmpty
  · rw [if_pos hg]
    rw [List.isEmpty_iff] at hg
    simp [hg]
  · rw [if_neg hg]
    rw [List.isEmpty_iff] at hg
    simp only [List.mem_cons, List.mem_append, List.mem_map, List.mem_singleton]
    constructor
    · rintro (he | ⟨a, _, hba⟩ | he0)
      · refine ⟨?_, hg⟩
        cases T <;> cases T' <;> first | rfl | exact absurd he (by decide)
      · exfalso
        have h2 := congrArg front2 hba
        rw [front2_bulletOf] at h2
        cases T <;> exact absurd h2 (by decide)
      · exfalso
        cases T <;> exact absurd he0 (by decide)
    · rintro ⟨rfl, _⟩
      exact Or.inl rfl

theorem headerOf_not_mem_heading (nowIso : String) (T : AlertType) :
    headerOf T ∉ ["# 🚨 Smaira Alerts", "", "Generated: " ++ nowIso, ""] := by
  intro h
  simp only [List.mem_cons, List.mem_singleton, List.not_mem_nil, or_false] at h
  rcases h with h | h | h | h
  · cases T <;> exact absurd h (by decide)
  · cases T <;> exact absurd h (by decide)
  · have h2 := congrArg front2 h
    rw [front2_generated] at h2
    cases T <;> exact absurd h2 (by decide)
  · cases T <;> exact absurd h (by decide)

theorem headerOf_mem_alertLines (nowIso : String) (alerts : List Alert)
    (T : AlertType) :
    headerOf T ∈ alertLines nowIso alerts ↔
      alerts.filter (fun a => decide (a.type = T)) ≠ [] := by
  unfold alertLines
  rw [List.mem_append]
  constructor
  · rintro (hh | hf)
    · exact absurd hh (headerOf_not_mem_heading nowIso T)
    · rw [List.mem_flatMap] at hf
      obtain ⟨T', _, hmem⟩ := hf
      obtain ⟨rfl, hne⟩ := (headerOf_mem_sectionOf alerts T T').mp hmem
      exact hne
  · intro hne
    refine Or.inr ?_
    rw [List.mem_flatMap]
    refine ⟨T, ?_, (headerOf_mem_sectionOf alerts T T).mpr ⟨rfl, hne⟩⟩
    cases T <;> simp [displayOrder]

theorem count_headerOf_sectionOf (alerts : List Alert) (T T' : AlertType) :
    (sectionOf alerts T').count (headerOf T) ≤ if T = T' then 1 else 0 := by
  by_cases hT : T = T'
  · subst hT
    rw [if_pos rfl]
    unfold sectionOf
    by_cases hg : (alerts.filter (fun a => decide (a.type = T))).isEmpty
    · rw [if_pos hg]
      simp
    · rw [if_neg hg]
      have hrest : ((alerts.filter (fun a => decide (a.type = T))).map (bulletOf T)
          ++ [""]).count (headerOf T) = 0 := by
        rw [List.count_eq_zero]
        intro hmem
        rcases List.mem_append.mp hmem with hb | h0
        · obtain ⟨a, _, hba⟩ := List.mem_map.mp hb
          have h2 := congrArg front2 hba
          rw [front2_bulletOf] at h2
          cases T <;> exact absurd h2 (by decide)
        · have h0' := List.mem_singleton.mp h0
          cases T <;> exact absurd h0' (by decide)
      rw [List.count_cons_self, hrest]
  · rw [if_neg hT, Nat.le_zero, List.count_eq_zero]
    intro hmem
    exact hT ((headerOf_mem_sectionOf alerts T T').mp hmem).1

theorem count_headerOf_alertLines (nowIso : String) (alerts : List Alert)
    (T : AlertType) : (alertLines nowIso alerts).count (headerOf T) ≤ 1 := by
  unfold alertLines
  rw [List.count_append]
  have h0 : (["# 🚨 Smaira Alerts", "", "Generated: " ++ nowIso, ""]).count
      (headerOf T) = 0 := by
    rw [List.count_eq_zero]
    exact headerOf_not_mem_heading nowIso T
  rw [h0]
  simp only [displayOrder, List.flatMap_cons, List.flatMap_nil, List.count_append,
    List.count_nil, List.append_nil]
  have h1 := count_headerOf_sectionOf alerts T .price_surge
  have h2 := count_headerOf_sectionOf alerts T .price_drop
  have h3 := count_headerOf_sectionOf alerts T .volume_spike
  have h4 := count_headerOf_sectionOf alerts T .new_token
  cases T <;> simp_all

theorem headers_sublist_flatMap (alerts : List Alert) :
    ∀ l : List AlertType,
      ((l.filter fun T => !(alerts.filter fun a => decide (a.type = T)).isEmpty).map
        headerOf).Sublist (l.flatMap (sectionOf alerts))
  | [] => by simp
  | T :: l => by
    rw [List.flatMap_cons, List.filter_cons]
    by_cases hp : (!(alerts.filter fun a => decide (a.type = T)).isEmpty) = true
    · rw [if_pos hp, List.map_cons]
      have hg : ¬(alerts.filter fun a => decide (a.type = T)).isEmpty = true := by
        simpa using hp
      unfold sectionOf
      rw [if_neg hg, List.cons_append]
      exact List.Sublist.cons₂ _ ((headers_sublist_flatMap alerts l).trans
        (List.sublist_append_right _ _))
    · rw [if_neg hp]
      have hg : (alerts.filter fun a => decide (a.type = T)).isEmpty = true := by
        simpa using hp
      unfold sectionOf
      rw [if_pos hg, List.nil_append]
      exact headers_sublist_flatMap alerts l

/-- C9: the alert formatter renders a single "No active alerts." line for the
empty list; otherwise it joins the rendered lines, in which each of the four
group headers occurs iff the corresponding group is non-empty, occurs at most
once, and the headers appear in the fixed display order `price_surge`,
`price_drop`, `volume_spike`, `new_token`. -/
theorem formatAlerts_grouping (nowIso : String) (alerts : List Alert) :
    formatAlerts nowIso [] = "No active alerts." ∧
    (∀ T, headerOf T ∈ alertLines nowIso alerts ↔ ∃ a ∈ alerts, a.type = T) ∧
    (∀ T, (alertLines nowIso alerts).count (headerOf T) ≤ 1) ∧
    ((displayOrder.filter fun T =>
        !(alerts.filter fun a => decide (a.type = T)).isEmpty).map
      headerOf).Sublist (alertLines nowIso alerts) ∧
    (alerts ≠ [] →
      formatAlerts nowIso alerts = String.intercalate "\n" (alertLines nowIso alerts)) := by
  refine ⟨rfl, ?_, fun T => count_headerOf_alertLines nowIso alerts T, ?_, ?_⟩
  · intro T
    rw [headerOf_mem_alertLines]
    constructor
    · intro hne
      obtain ⟨a, ha⟩ := List.exists_mem_of_ne_nil _ hne
      obtain ⟨hmem, hty⟩ := List.mem_filter.mp ha
      exact ⟨a, hmem, by simpa using hty⟩
    · rintro ⟨a, ha, hty⟩ h0
      have hin : a ∈ alerts.filter (fun a => decide (a.type = T)) :=
        List.mem_filter.mpr ⟨ha, by simp [hty]⟩
      rw [h0] at hin
      cases hin
  · unfold alertLines
    exact (headers_sublist_flatMap alerts displayOrder).trans
      (List.sublist_append_right _ _)
  · intro hne
    unfold formatAlerts
    rw [if_neg (by simpa [List.length_eq_zero] using hne)]

/-- Witness for C9: the empty case and a one-spike alert list. -/
theorem formatAlerts_grouping_witness :
    formatAlerts "ts" [] = "No active alerts." ∧
    headerOf .volume_spike ∈ alertLines "ts" [aSpike] ∧
    (alertLines "ts" [aSpike]).count (headerOf .volume_spike) ≤ 1 ∧
    formatAlerts "ts" [aSpike] = String.intercalate "\n" (alertLines "ts" [aSpike]) :=
  ⟨(formatAlerts_grouping "ts" [aSpike]).1,
   ((formatAlerts_grouping "ts" [aSpike]).2.1 .volume_spike).mpr (by decide),
   (formatAlerts_grouping "ts" [aSpike]).2.2.1 .volume_spike,
   (formatAlerts_grouping "ts" [aSpike]).2.2.2.2 (by decide)⟩


end Smaira
